import Mathlib

/-!
Verification of the force-directed knowledge-graph engine of the NASA
dashboard repository.

The repository's in-scope code is the thin `KnowledgeGraphController`
(drag handlers, graph loading, teardown), the `StorageService`, and the
`ToastService`; the layout engine itself (GraphModel, ForceSolver,
SimulationClock) is specified in the design document and is embedded
here from that specification, while the controller-level functions are
embedded from the TypeScript source.  All numeric state is modelled
with rationals.
-/

namespace KGraph

/-- A node of the knowledge graph, following the `GraphNode` interface of
the source (`id`, `label`, `type`, `size`) together with the kinematic
state (`x`, `y`, `vx`, `vy`) and the optional pin position `(fx, fy)`
described in the data model. -/
structure GraphNode where
  id : String
  label : String
  ty : String
  size : ℚ
  x : ℚ
  y : ℚ
  vx : ℚ
  vy : ℚ
  pin : Option (ℚ × ℚ)
deriving DecidableEq, Repr

/-- Node description as supplied by the graph-data snapshot
(`{id, label, type, size?}`). -/
structure NodeSpec where
  id : String
  label : String
  ty : String
  size : ℚ
deriving DecidableEq, Repr

/-- Edge description as supplied by the graph-data snapshot
(`{source, target, weight?}`), endpoints referenced by string id. -/
structure EdgeSpec where
  source : String
  target : String
  weight : ℚ
deriving DecidableEq, Repr

/-- An edge after build-time resolution: endpoints are indices into the
node list, resolved once at model-build time. -/
structure GraphEdge where
  sourceIdx : ℕ
  targetIdx : ℕ
  weight : ℚ
deriving DecidableEq, Repr

/-- The graph model: an ordered collection of nodes and the collection of
resolved edges.  Owns all kinematic state. -/
structure GraphModel where
  nodes : List GraphNode
  edges : List GraphEdge
deriving DecidableEq, Repr

/-- The error raised when an edge references an unknown node id. -/
inductive InvalidGraphError where
  | unknownNodeId : InvalidGraphError
deriving DecidableEq, Repr

/-- Index of the first node description whose id equals `i`, if any. -/
def resolveId : List NodeSpec → String → Option ℕ
  | [], _ => none
  | n :: ns, i => if n.id == i then some 0 else (resolveId ns i).map (· + 1)

/-- Resolve one edge's endpoints to node indices; `none` when either
endpoint id is absent from the node list. -/
def resolveEdge (nodes : List NodeSpec) (e : EdgeSpec) : Option GraphEdge :=
  match resolveId nodes e.source, resolveId nodes e.target with
  | some s, some t => some ⟨s, t, e.weight⟩
  | _, _ => none

/-- Resolve a whole edge list; `none` as soon as any edge fails to
resolve. -/
def resolveEdges (nodes : List NodeSpec) : List EdgeSpec → Option (List GraphEdge)
  | [] => some []
  | e :: es =>
    match resolveEdge nodes e, resolveEdges nodes es with
    | some g, some gs => some (g :: gs)
    | _, _ => none

/-- A freshly built node: snapshot fields copied, kinematic state zero,
no pin. -/
def initNode (n : NodeSpec) : GraphNode :=
  ⟨n.id, n.label, n.ty, n.size, 0, 0, 0, 0, none⟩

/-- Modelled from the spec: `GraphModel.build` (the construction step the
source delegates to the d3 force-layout library, which is not part of
the repository).  Fails with `InvalidGraphError` when any edge
references an unknown node id; otherwise returns the model with edges
resolved to indices.  No partial model is produced on failure. -/
def build (nodes : List NodeSpec) (edges : List EdgeSpec) :
    Except InvalidGraphError GraphModel :=
  match resolveEdges nodes edges with
  | some es => Except.ok ⟨nodes.map initNode, es⟩
  | none => Except.error InvalidGraphError.unknownNodeId

/-- Modelled from the spec: one integration step for a single node given
its accumulated force — `velocity += accumulatedForce; position +=
velocity` per axis, except that a node with a pin position has its
position forced to `(fx, fy)` and its velocity zeroed.  (The solver
itself lives in the d3 library, outside the repository.) -/
def integrateNode (f : ℚ × ℚ) (n : GraphNode) : GraphNode :=
  match n.pin with
  | some p => { n with x := p.1, y := p.2, vx := 0, vy := 0 }
  | none =>
    let nvx := n.vx + f.1
    let nvy := n.vy + f.2
    { n with vx := nvx, vy := nvy, x := n.x + nvx, y := n.y + nvy }

/-- Modelled from the spec: one solver step over the whole model, the
per-node accumulated force being abstracted as a function `f` (the four
forces compose additively into it). -/
def solverStep (f : GraphNode → ℚ × ℚ) (m : GraphModel) : GraphModel :=
  { m with nodes := m.nodes.map (fun n => integrateNode (f n) n) }

/-- Pin the node with the given id at position `(px, py)`; silent no-op
when the id is unknown. -/
def GraphModel.pinNode (m : GraphModel) (nid : String) (px py : ℚ) : GraphModel :=
  { m with nodes := m.nodes.map (fun n =>
      if n.id = nid then { n with pin := some (px, py) } else n) }

/-- Pin the node with the given id at its own current position, as the
drag-start handler does with `subject.fx = subject.x; subject.fy =
subject.y`. -/
def GraphModel.pinCurrent (m : GraphModel) (nid : String) : GraphModel :=
  { m with nodes := m.nodes.map (fun n =>
      if n.id = nid then { n with pin := some (n.x, n.y) } else n) }

/-- Clear the pin of the node with the given id (`fx = null; fy = null`);
silent no-op when the id is unknown. -/
def GraphModel.unpin (m : GraphModel) (nid : String) : GraphModel :=
  { m with nodes := m.nodes.map (fun n =>
      if n.id = nid then { n with pin := none } else n) }

/-! ## Simulation clock

Modelled from the spec: the clock (alpha schedule, reheat/cool/stop)
lives in the d3 force-simulation library, outside the repository.  The
spec gives it states Idle/Running/Settling, a per-tick multiplicative
alpha decay, a stop threshold, a reheat that sets alpha to
`max(currentAlpha, target)` and holds it forced up until `cool` clears
the forcing, and an idempotent `stop` that cancels the scheduled tick. -/

/-- The clock's state-machine states. -/
inductive ClockState where
  | Idle : ClockState
  | Running : ClockState
  | Settling : ClockState
deriving DecidableEq, Repr

/-- Modelled from the spec: the simulation clock's scalar state —
`alpha`, the stop threshold `alphaMin`, the per-tick decay `alphaDecay`,
the forcing floor `alphaTarget` installed by `reheat` and cleared by
`cool`, the state-machine state, and whether a tick is scheduled for the
next frame. -/
structure SimClock where
  alpha : ℚ
  alphaMin : ℚ
  alphaDecay : ℚ
  alphaTarget : ℚ
  state : ClockState
  scheduled : Bool
deriving DecidableEq, Repr

/-- Modelled from the spec: one clock tick — alpha decays
multiplicatively but is held up by the forcing floor; when the result
drops below `alphaMin` the clock goes Idle and stops scheduling ticks. -/
def SimClock.tickStep (c : SimClock) : SimClock :=
  let a := max (c.alpha * (1 - c.alphaDecay)) c.alphaTarget
  if a < c.alphaMin then
    { c with alpha := a, state := ClockState.Idle, scheduled := false }
  else
    { c with alpha := a, scheduled := true }

/-- Modelled from the spec: `reheat(target)` — Idle/Settling to Running,
alpha set to `max(currentAlpha, target)` without resetting positions,
the forcing floor installed. -/
def SimClock.reheat (t : ℚ) (c : SimClock) : SimClock :=
  { c with alpha := max c.alpha t, alphaTarget := t,
           state := ClockState.Running, scheduled := true }

/-- Modelled from the spec: `cool()` — alpha is no longer forced up;
ordinary decay resumes. -/
def SimClock.cool (c : SimClock) : SimClock :=
  { c with alphaTarget := 0 }

/-- Modelled from the spec: `stop()` — any state to Idle, the scheduled
tick cancelled. -/
def SimClock.stopClock (c : SimClock) : SimClock :=
  { c with state := ClockState.Idle, scheduled := false }

/-- Modelled from the spec: what one display frame does to the clock — it
runs a tick only when one is scheduled. -/
def SimClock.frame (c : SimClock) : SimClock :=
  if c.scheduled then c.tickStep else c

/-! ## Interaction: drag handlers and pan/zoom

Embedded from `KnowledgeGraphController.createDragBehavior` and
`displayGraph` in the source.  `active` is the d3 drag event's `active`
flag: true when another drag gesture of the same behavior is still in
progress.  The clock calls are the spec-modelled ones above. -/

/-- The live view the controller mutates: the graph model together with
the simulation clock. -/
structure GraphView where
  model : GraphModel
  clock : SimClock
deriving DecidableEq, Repr

/-- The drag-start handler: when no other gesture is active, reheat the
clock to 0.3 (`alphaTarget(0.3).restart()`), and pin the subject at its
current position (`fx = x; fy = y`). -/
def dragStart (gv : GraphView) (active : Bool) (nid : String) : GraphView :=
  { model := gv.model.pinCurrent nid,
    clock := if active then gv.clock else SimClock.reheat (3/10) gv.clock }

/-- The drag-move handler: the pin follows the pointer
(`fx = event.x; fy = event.y`). -/
def dragMove (gv : GraphView) (nid : String) (px py : ℚ) : GraphView :=
  { gv with model := gv.model.pinNode nid px py }

/-- The drag-end handler: when no other gesture is active, drop the
forcing floor (`alphaTarget(0)`), and clear the subject's pin
(`fx = null; fy = null`). -/
def dragEnd (gv : GraphView) (active : Bool) (nid : String) : GraphView :=
  { model := gv.model.unpin nid,
    clock := if active then gv.clock else SimClock.cool gv.clock }

/-- The viewport transform `(translateX, translateY, scale)`. -/
structure Viewport where
  tx : ℚ
  ty : ℚ
  scale : ℚ
deriving DecidableEq, Repr

/-- A pan/zoom gesture sample. -/
structure ZoomSample where
  tx : ℚ
  ty : ℚ
  scale : ℚ
deriving DecidableEq, Repr

/-- Modelled from the spec: the scale clamp the source configures with
`scaleExtent([0.5, 3])` (the clamping itself happens inside the d3 zoom
behavior, outside the repository). -/
def clampScale (s : ℚ) : ℚ := max (1/2) (min 3 s)

/-- One pan/zoom update: writes the clamped sample into the viewport
transform and leaves the graph model untouched. -/
def applyZoom (vm : Viewport × GraphModel) (z : ZoomSample) : Viewport × GraphModel :=
  (⟨z.tx, z.ty, clampScale z.scale⟩, vm.2)

/-- A whole gesture: the samples applied in order. -/
def applyZoomSeq (vm : Viewport × GraphModel) (zs : List ZoomSample) :
    Viewport × GraphModel :=
  zs.foldl applyZoom vm

/-! ## Controller lifecycle

Embedded from `KnowledgeGraphController.destroy` in the source: stop the
simulation if there is one, remove the tooltip. -/

/-- The controller state `destroy` touches: the optional simulation
clock (`null` until a graph has been displayed) and whether a tooltip
element is in the document. -/
structure ControllerState where
  sim : Option SimClock
  tooltipShown : Bool
deriving DecidableEq, Repr

/-- `destroy()`: `if (this.simulation) this.simulation.stop();` then
remove the tooltip if present. -/
def destroy (k : ControllerState) : ControllerState :=
  { sim := k.sim.map SimClock.stopClock, tooltipShown := false }

/-- One simulated display frame at the controller level: the clock runs
its frame step when present. -/
def controllerFrame (k : ControllerState) : ControllerState :=
  { k with sim := k.sim.map SimClock.frame }

/-! ## Graph loading

Embedded from `KnowledgeGraphController.loadGraph` and `displayGraph` in
the source.  `loadGraph` shows an info toast, awaits the fetch, displays
the graph, and shows a success toast — the whole body inside a
`try/catch` whose handler logs and shows an error toast, so the returned
promise always resolves. -/

/-- A toast notification, as produced by the `ToastService` convenience
methods. -/
inductive Toast where
  | info : String → Toast
  | success : String → Toast
  | error : String → Toast
deriving DecidableEq, Repr

/-- `displayGraph`: returns early (no failure) when the graph container
is absent from the page; otherwise builds the force layout, which fails
exactly when the snapshot has an orphan edge. -/
def displayGraph (container : Bool) (nodes : List NodeSpec) (edges : List EdgeSpec) :
    Except InvalidGraphError Unit :=
  if container then
    match build nodes edges with
    | Except.ok _ => Except.ok ()
    | Except.error e => Except.error e
  else Except.ok ()

/-- What loadGraph may throw before its catch handler runs. -/
inductive LoadError where
  | fetchFailed : String → LoadError
  | displayFailed : InvalidGraphError → LoadError
deriving DecidableEq, Repr

/-- The body of `loadGraph`'s try block: info toast, fetch (which may
reject), display (which may throw), success toast. -/
def loadGraphTry (fetch : Except String (List NodeSpec × List EdgeSpec))
    (container : Bool) : Except LoadError (List Toast) :=
  match fetch with
  | Except.error e => Except.error (LoadError.fetchFailed e)
  | Except.ok data =>
    match displayGraph container data.1 data.2 with
    | Except.error e => Except.error (LoadError.displayFailed e)
    | Except.ok _ =>
      Except.ok [Toast.info "Loading knowledge graph...",
                 Toast.success "Knowledge graph loaded successfully"]

/-- `loadGraph`: the try body with its catch handler, which converts any
error into an error toast instead of re-throwing. -/
def loadGraph (fetch : Except String (List NodeSpec × List EdgeSpec))
    (container : Bool) : Except LoadError (List Toast) :=
  match loadGraphTry fetch container with
  | Except.ok ts => Except.ok ts
  | Except.error _ =>
    Except.ok [Toast.info "Loading knowledge graph...",
               Toast.error "Failed to load knowledge graph"]

/-! ## Alpha decay schedule

The convergence property quantifies the tick count of the schedule
`alpha := 1.0; each tick: alpha := alpha * (1 - alphaDecay)` with stop
condition `alpha < alphaMin`. -/

/-- Modelled from the spec: alpha after `n` ticks of multiplicative
decay from the starting value 1. -/
def alphaAfter (d : ℚ) : ℕ → ℚ
  | 0 => 1
  | n + 1 => alphaAfter d n * (1 - d)

/-- Closed form of the decay schedule (a proof term used below). -/
def alphaAfter_eq_pow (d : ℚ) (n : ℕ) : alphaAfter d n = (1 - d) ^ n := by
  induction n with
  | zero => rfl
  | succ n ih => rw [alphaAfter, ih, pow_succ]

/-- The alpha sequence eventually drops below any positive threshold
when the decay lies in `(0, 1)` (a proof term used to construct
`ticksToStop`). -/
def alphaAfter_eventually_lt (d m : ℚ) (hd : 0 < d) (_hd1 : d < 1)
    (hm : 0 < m) : ∃ n, alphaAfter d n < m := by
  obtain ⟨n, hn⟩ := exists_pow_lt_of_lt_one hm (by linarith : (1 : ℚ) - d < 1)
  exact ⟨n, by rwa [alphaAfter_eq_pow]⟩

/-- The number of ticks the clock executes before stopping: the least
`n` with `alphaAfter d n < m` (tick `n` is the one that observes
`alpha < alphaMin` and stops scheduling). -/
def ticksToStop (d m : ℚ) (hd : 0 < d) (hd1 : d < 1) (hm : 0 < m) : ℕ :=
  Nat.find (alphaAfter_eventually_lt d m hd hd1 hm)

/-! ## Collision force on two overlapping nodes

Modelled from the spec: each node is a disk of radius `size * 3`; for an
overlapping pair the collision force separates them along the connecting
axis by half the overlap each, scaled by alpha; contributions integrate
as `velocity += force; position += velocity`.  For two same-size nodes
starting on a common axis with zero velocity the motion stays on that
axis, so the system is one-dimensional. -/

/-- The collision radius of a node of the given size (`size * 3`). -/
def collisionRadius (size : ℚ) : ℚ := size * 3

/-- The two-node state on the connecting axis: positions and velocities
of the left and right node. -/
structure TwoNodes where
  x1 : ℚ
  x2 : ℚ
  v1 : ℚ
  v2 : ℚ
deriving DecidableEq, Repr

/-- The collision force on the pair when the center distance is below
`sep` (the sum of the radii): each endpoint receives half the overlap,
scaled by alpha `a`, directed apart. -/
def collForce (sep a x1 x2 : ℚ) : ℚ × ℚ :=
  if x2 - x1 < sep then
    (-(a * (sep - (x2 - x1)) / 2), a * (sep - (x2 - x1)) / 2)
  else (0, 0)

/-- One solver tick for the pair with only the collision force enabled:
accumulate the force into the velocities, then integrate positions. -/
def collTick (sep a : ℚ) (s : TwoNodes) : TwoNodes :=
  let f := collForce sep a s.x1 s.x2
  let w1 := s.v1 + f.1
  let w2 := s.v2 + f.2
  ⟨s.x1 + w1, s.x2 + w2, w1, w2⟩

/-- The pair's trajectory: both nodes start at rest, the right one `D0`
away from the left; tick `n + 1` runs with alpha `(1 - d) ^ (n + 1)`
per the decay schedule. -/
def collRun (sep d D0 : ℚ) : ℕ → TwoNodes
  | 0 => ⟨0, D0, 0, 0⟩
  | n + 1 => collTick sep ((1 - d) ^ (n + 1)) (collRun sep d D0 n)

/-- Center distance of the pair after `n` ticks. -/
def collDist (sep d D0 : ℚ) (n : ℕ) : ℚ :=
  (collRun sep d D0 n).x2 - (collRun sep d D0 n).x1

/-- Relative separating velocity of the pair after `n` ticks. -/
def collVel (sep d D0 : ℚ) (n : ℕ) : ℚ :=
  (collRun sep d D0 n).v2 - (collRun sep d D0 n).v1

/-! ## Storage service

Embedded from `StorageService` in the source (`main.ts`): saved articles
are an in-memory list; `saveArticle` refuses a duplicate id, otherwise
appends. -/

/-- A saved article, following the `SavedArticle` interface of the
source. -/
structure SavedArticle where
  id : ℤ
  pmcid : String
  title : String
  snippet : String
  link : String
deriving DecidableEq, Repr

/-- `saveArticle`: returns `false` and leaves the list unchanged when an
article with the same id is already saved, otherwise pushes the article
and returns `true`. -/
def saveArticle (l : List SavedArticle) (a : SavedArticle) :
    Bool × List SavedArticle :=
  if (l.find? (fun b => b.id == a.id)).isSome then (false, l)
  else (true, l ++ [a])

/-- `isArticleSaved`: whether some saved article has the given id. -/
def isArticleSaved (l : List SavedArticle) (i : ℤ) : Bool :=
  l.any (fun a => a.id == i)

/-! ## Concrete states used by witnesses and counterexamples -/

/-- A free (unpinned) node. -/
def nodeA : GraphNode := ⟨"a", "Node A", "organism", 5, 1, 2, 0, 0, none⟩

/-- A pinned node, its pin at `(7, 8)`. -/
def nodePinned : GraphNode := ⟨"p", "Pinned", "organism", 5, 1, 2, 3, 4, some (7, 8)⟩

/-- A one-node model whose node is pinned. -/
def mPinned : GraphModel := ⟨[nodePinned], []⟩

/-- A constant unit force on both axes. -/
def forceOne : GraphNode → ℚ × ℚ := fun _ => (1, 1)

/-- A settling clock with a low alpha and no forcing floor. -/
def clock0 : SimClock := ⟨1/10, 1/1000, 1/50, 0, ClockState.Settling, true⟩

/-- A running clock whose forcing floor is still installed (a drag of
another pointer is in progress). -/
def clockHot : SimClock := ⟨3/10, 1/1000, 1/50, 3/10, ClockState.Running, true⟩

/-- A view of a one-node graph with the settling clock. -/
def gv0 : GraphView := ⟨⟨[nodeA], []⟩, clock0⟩

/-- A view of a one-node graph with the reheated clock. -/
def gv1 : GraphView := ⟨⟨[nodeA], []⟩, clockHot⟩

/-- A snapshot with one node. -/
def wNodes : List NodeSpec := [⟨"a", "A", "organism", 5⟩]

/-- A snapshot edge list holding one self-loop on that node. -/
def wEdges : List EdgeSpec := [⟨"a", "a", 1⟩]

/-- A viewport at identity-ish transform. -/
def vp0 : Viewport := ⟨0, 0, 1⟩

/-- A zoom sample whose raw scale 10 lies outside the configured range. -/
def zBig : ZoomSample := ⟨5, 5, 10⟩

/-- An empty graph model. -/
def m0 : GraphModel := ⟨[], []⟩

/-- A controller state with a live settling simulation and a tooltip. -/
def ks0 : ControllerState := ⟨some clock0, true⟩

/-- A saved article with id 1. -/
def art1 : SavedArticle := ⟨1, "PMC1", "Title 1", "Snippet 1", "Link 1"⟩

/-! # Theorems -/

/-- Helper: `resolveId` finds an index exactly when some node in the list
carries the id. -/
theorem resolveId_isSome_iff (ns : List NodeSpec) (i : String) :
    (resolveId ns i).isSome = true ↔ ∃ n ∈ ns, n.id = i := by
  induction ns with
  | nil => simp [resolveId]
  | cons n ns ih =>
    rw [resolveId]
    by_cases h : n.id = i
    · simp [h]
    · rw [if_neg (by simpa using h)]
      have hmap : ((resolveId ns i).map (· + 1)).isSome = (resolveId ns i).isSome := by
        cases resolveId ns i <;> rfl
      rw [hmap, ih]
      constructor
      · rintro ⟨b, hb, hbi⟩
        exact ⟨b, List.mem_cons_of_mem _ hb, hbi⟩
      · rintro ⟨b, hb, hbi⟩
        rcases List.mem_cons.mp hb with rfl | hb'
        · exact absurd hbi h
        · exact ⟨b, hb', hbi⟩

/-- Helper: one edge resolves exactly when both endpoint ids occur in the
node list. -/
theorem resolveEdge_isSome_iff (ns : List NodeSpec) (e : EdgeSpec) :
    (resolveEdge ns e).isSome = true ↔
      (∃ n ∈ ns, n.id = e.source) ∧ (∃ n ∈ ns, n.id = e.target) := by
  rw [← resolveId_isSome_iff, ← resolveId_isSome_iff]
  unfold resolveEdge
  rcases hs : resolveId ns e.source with _ | s <;>
    rcases ht : resolveId ns e.target with _ | t <;> simp

/-- Helper: an edge list resolves exactly when every edge does. -/
theorem resolveEdges_isSome_iff (ns : List NodeSpec) (es : List EdgeSpec) :
    (resolveEdges ns es).isSome = true ↔
      ∀ e ∈ es, (resolveEdge ns e).isSome = true := by
  induction es with
  | nil => simp [resolveEdges]
  | cons e es ih =>
    rw [List.forall_mem_cons, ← ih]
    have hstep : resolveEdges ns (e :: es) =
        match resolveEdge ns e, resolveEdges ns es with
        | some g, some gs => some (g :: gs)
        | _, _ => none := rfl
    rw [hstep]
    rcases h1 : resolveEdge ns e with _ | g <;>
      rcases h2 : resolveEdges ns es with _ | gs <;> simp [h1, h2]

/-- Claim C2 — graph construction rejects orphan edges and only those:
`build` succeeds exactly when every edge's source and target id occur in
the supplied node list (self-loops included, since both conjuncts then
coincide), and whenever it does not succeed it returns
`InvalidGraphError` with no partial model. -/
theorem build_ok_iff_no_orphan (nodes : List NodeSpec) (edges : List EdgeSpec) :
    ((build nodes edges).isOk = true ↔
      ∀ e ∈ edges, (∃ n ∈ nodes, n.id = e.source) ∧ (∃ n ∈ nodes, n.id = e.target))
    ∧ ((build nodes edges).isOk = false →
        build nodes edges = Except.error InvalidGraphError.unknownNodeId) := by
  have key : (build nodes edges).isOk = true ↔
      (resolveEdges nodes edges).isSome = true := by
    unfold build
    rcases h : resolveEdges nodes edges with _ | es <;> simp [Except.isOk, Except.toBool]
  constructor
  · rw [key, resolveEdges_isSome_iff]
    constructor
    · intro h e he
      exact (resolveEdge_isSome_iff nodes e).mp (h e he)
    · intro h e he
      exact (resolveEdge_isSome_iff nodes e).mpr (h e he)
  · intro h
    unfold build at h ⊢
    rcases hr : resolveEdges nodes edges with _ | es <;> simp [hr] at h ⊢
    simp [Except.isOk, Except.toBool] at h

/-- Witness for C2: the single-node snapshot with a self-loop edge
builds successfully. -/
theorem build_ok_iff_no_orphan_witness : (build wNodes wEdges).isOk = true :=
  (build_ok_iff_no_orphan wNodes wEdges).1.mpr (by decide)

/-- Claim C1 — pin invariant: in a solver step with an arbitrary
accumulated force, a node whose pin `(px, py)` is set when the tick runs
comes out with position exactly `(px, py)` and zero velocity on both
axes; it is excluded from positional integration. -/
theorem solver_pin_invariant (f : GraphNode → ℚ × ℚ) (m : GraphModel)
    (i : ℕ) (hi : i < m.nodes.length) (px py : ℚ)
    (hpin : m.nodes[i].pin = some (px, py)) :
    (solverStep f m).nodes[i]? =
      some { m.nodes[i] with x := px, y := py, vx := 0, vy := 0 } := by
  have h1 : (solverStep f m).nodes[i]? =
      some (integrateNode (f m.nodes[i]) m.nodes[i]) := by
    simp [solverStep, List.getElem?_eq_getElem hi]
  rw [h1]
  congr 1
  simp [integrateNode.eq_def, hpin]

/-- Witness for C1: the concrete pinned node lands on its pin with zero
velocity under a nonzero force. -/
theorem solver_pin_invariant_witness :
    0 < mPinned.nodes.length ∧
    (mPinned.nodes.get ⟨0, by decide⟩).pin = some (7, 8) ∧
    (solverStep forceOne mPinned).nodes[0]? =
      some { mPinned.nodes.get ⟨0, by decide⟩ with x := 7, y := 8, vx := 0, vy := 0 } :=
  ⟨by decide, by decide,
    solver_pin_invariant forceOne mPinned 0 (by decide) 7 8 (by decide)⟩

/-- Claim C9 — `loadGraph` never rejects: for every outcome of the fetch
and of the display step the result is a resolved promise, and whenever
the try body failed the emitted toasts include the error notification. -/
theorem loadGraph_never_rejects (fetch : Except String (List NodeSpec × List EdgeSpec))
    (container : Bool) :
    ∃ ts, loadGraph fetch container = Except.ok ts ∧
      ((loadGraphTry fetch container).isOk = false →
        Toast.error "Failed to load knowledge graph" ∈ ts) := by
  unfold loadGraph
  rcases h : loadGraphTry fetch container with e | ts
  · exact ⟨_, rfl, fun _ => by simp⟩
  · exact ⟨ts, rfl, fun hk => by simp [Except.isOk, Except.toBool] at hk⟩

/-- Witness for C9: a failed fetch still resolves, with the error toast
among the notifications. -/
theorem loadGraph_never_rejects_witness :
    ∃ ts, loadGraph (Except.error "network failure") true = Except.ok ts ∧
      ((loadGraphTry (Except.error "network failure") true).isOk = false →
        Toast.error "Failed to load knowledge graph" ∈ ts) :=
  loadGraph_never_rejects (Except.error "network failure") true

/-- Claim C10 — saved-articles uniqueness: `saveArticle` returns `false`
and leaves the list unchanged exactly when the id is already saved
(`isArticleSaved` agreeing with that membership), appends and returns
`true` otherwise, and therefore preserves distinctness of the saved
ids. -/
theorem saveArticle_unique (l : List SavedArticle) (a : SavedArticle) :
    (isArticleSaved l a.id = true → saveArticle l a = (false, l))
    ∧ (isArticleSaved l a.id = false → saveArticle l a = (true, l ++ [a]))
    ∧ (isArticleSaved l a.id = true ↔ ∃ b ∈ l, b.id = a.id)
    ∧ ((l.map SavedArticle.id).Nodup →
        ((saveArticle l a).2.map SavedArticle.id).Nodup) := by
  have hmem : isArticleSaved l a.id = true ↔ ∃ b ∈ l, b.id = a.id := by
    simp [isArticleSaved]
  have hfind : (l.find? (fun b => b.id == a.id)).isSome = true ↔
      ∃ b ∈ l, b.id = a.id := by
    rw [List.find?_isSome]
    simp
  refine ⟨?_, ?_, hmem, ?_⟩
  · intro h
    simp only [saveArticle]
    rw [if_pos (hfind.mpr (hmem.mp h))]
  · intro h
    have h' : ¬ ∃ b ∈ l, b.id = a.id := by
      rw [← hmem, h]
      simp
    simp only [saveArticle]
    rw [if_neg (fun hs => h' (hfind.mp hs))]
  · intro hnd
    by_cases h : (l.find? (fun b => b.id == a.id)).isSome = true
    · simp only [saveArticle]
      rw [if_pos h]
      exact hnd
    · have hnotin : a.id ∉ l.map SavedArticle.id := by
        intro hc
        rcases List.mem_map.mp hc with ⟨b, hb, hbi⟩
        exact h (hfind.mpr ⟨b, hb, hbi⟩)
      simp only [saveArticle]
      rw [if_neg h]
      simp only [List.map_append, List.map_cons, List.map_nil]
      rw [List.nodup_append]
      refine ⟨hnd, List.nodup_singleton _, ?_⟩
      intro x hx hx'
      simp only [List.mem_singleton] at hx'
      exact hnotin (hx' ▸ hx)

/-- Witness for C10: attempting to save the concrete article a second
time is refused and the list keeps its single entry. -/
theorem saveArticle_unique_witness :
    (isArticleSaved [art1] art1.id = true → saveArticle [art1] art1 = (false, [art1]))
    ∧ (isArticleSaved [art1] art1.id = false →
        saveArticle [art1] art1 = (true, [art1] ++ [art1]))
    ∧ (isArticleSaved [art1] art1.id = true ↔ ∃ b ∈ [art1], b.id = art1.id)
    ∧ (([art1].map SavedArticle.id).Nodup →
        ((saveArticle [art1] art1).2.map SavedArticle.id).Nodup) :=
  saveArticle_unique [art1] art1

/-- Helper: a pan/zoom update never touches the graph model. -/
theorem applyZoomSeq_snd (vm : Viewport × GraphModel) (zs : List ZoomSample) :
    (applyZoomSeq vm zs).2 = vm.2 := by
  induction zs generalizing vm with
  | nil => rfl
  | cons z zs ih =>
    rw [applyZoomSeq, List.foldl_cons, ← applyZoomSeq, ih]
    rfl

/-- Helper: after any update the scale sits in the configured range. -/
theorem applyZoomSeq_scale (vm : Viewport × GraphModel) (z : ZoomSample)
    (zs : List ZoomSample) :
    1/2 ≤ (applyZoomSeq vm (z :: zs)).1.scale
    ∧ (applyZoomSeq vm (z :: zs)).1.scale ≤ 3 := by
  induction zs generalizing vm z with
  | nil =>
    refine ⟨le_max_left _ _, max_le (by norm_num) (min_le_left _ _)⟩
  | cons z2 zs ih =>
    rw [applyZoomSeq, List.foldl_cons, ← applyZoomSeq]
    exact ih (applyZoom vm z) z2

/-- Claim C6 — viewport scale clamp: every pan/zoom update clamps the
scale into `[0.5, 3]` and leaves the graph model untouched, both for a
single sample and after any nonempty gesture sequence. -/
theorem zoom_scale_clamped (v : Viewport) (m : GraphModel) (z : ZoomSample)
    (zs : List ZoomSample) :
    (1/2 ≤ (applyZoom (v, m) z).1.scale ∧ (applyZoom (v, m) z).1.scale ≤ 3
      ∧ (applyZoom (v, m) z).2 = m)
    ∧ (1/2 ≤ (applyZoomSeq (v, m) (z :: zs)).1.scale
      ∧ (applyZoomSeq (v, m) (z :: zs)).1.scale ≤ 3
      ∧ (applyZoomSeq (v, m) (z :: zs)).2 = m) := by
  refine ⟨⟨le_max_left _ _, max_le (by norm_num) (min_le_left _ _), rfl⟩, ?_⟩
  obtain ⟨h1, h2⟩ := applyZoomSeq_scale (v, m) z zs
  exact ⟨h1, h2, applyZoomSeq_snd (v, m) (z :: zs)⟩

/-- Witness for C6: a raw scale of 10 is clamped and the model is kept
as-is. -/
theorem zoom_scale_clamped_witness :
    (1/2 ≤ (applyZoom (vp0, m0) zBig).1.scale ∧ (applyZoom (vp0, m0) zBig).1.scale ≤ 3
      ∧ (applyZoom (vp0, m0) zBig).2 = m0)
    ∧ (1/2 ≤ (applyZoomSeq (vp0, m0) (zBig :: [])).1.scale
      ∧ (applyZoomSeq (vp0, m0) (zBig :: [])).1.scale ≤ 3
      ∧ (applyZoomSeq (vp0, m0) (zBig :: [])).2 = m0) :=
  zoom_scale_clamped vp0 m0 zBig []

/-- Claim C7 — teardown is idempotent and complete: `destroy` composed
with itself equals one `destroy` (so a second call is safe and cannot
throw, both being the same total function application), a simulated
frame after teardown mutates nothing, and the clock — when one exists —
ends Idle with no tick scheduled. -/
theorem destroy_idempotent_safe (k : ControllerState) :
    destroy (destroy k) = destroy k
    ∧ controllerFrame (destroy k) = destroy k
    ∧ ∀ c, (destroy k).sim = some c →
        c.state = ClockState.Idle ∧ c.scheduled = false := by
  refine ⟨?_, ?_, ?_⟩
  · cases hk : k.sim with
    | none => simp [destroy, hk]
    | some c => simp [destroy, hk, SimClock.stopClock]
  · cases hk : k.sim with
    | none => simp [controllerFrame, destroy, hk]
    | some c => simp [controllerFrame, destroy, hk, SimClock.frame, SimClock.stopClock]
  · intro c hc
    cases hk : k.sim with
    | none => rw [destroy] at hc; simp [hk] at hc
    | some c0 =>
      rw [destroy] at hc
      rw [hk] at hc
      have hc' : SimClock.stopClock c0 = c := by simpa using hc
      rw [← hc']
      exact ⟨rfl, rfl⟩

/-- Witness for C7: tearing the concrete controller state down twice is
the same as once, and a later frame is inert. -/
theorem destroy_idempotent_safe_witness :
    destroy (destroy ks0) = destroy ks0
    ∧ controllerFrame (destroy ks0) = destroy ks0
    ∧ ∀ c, (destroy ks0).sim = some c →
        c.state = ClockState.Idle ∧ c.scheduled = false :=
  destroy_idempotent_safe ks0

/-- Counterexample for C4 as stated: a drag-start event arriving while
another drag gesture is active (`event.active` true) does not invoke
reheat — alpha stays at 1/10 instead of rising to `max(1/10, 0.3)`. -/
theorem dragStart_reheat_counterexample :
    (dragStart gv0 true "a").clock.alpha ≠ max gv0.clock.alpha (3/10) := by
  norm_num [dragStart, gv0, clock0, max_def]

/-- Claim C4, amended — drag start always pins the dragged node at its
current position, and invokes reheat(0.3) exactly when no other drag
gesture is active; reheat sets alpha to `max(currentAlpha, 0.3)` and
puts the clock in Running without touching node positions. -/
theorem dragStart_pins_and_reheats (gv : GraphView) (active : Bool) (nid : String)
    (i : ℕ) (hi : i < gv.model.nodes.length)
    (hid : gv.model.nodes[i].id = nid) :
    (dragStart gv active nid).model.nodes[i]? =
      some { gv.model.nodes[i] with
             pin := some (gv.model.nodes[i].x, gv.model.nodes[i].y) }
    ∧ ((dragStart gv active nid).clock =
        if active then gv.clock else SimClock.reheat (3/10) gv.clock)
    ∧ (SimClock.reheat (3/10) gv.clock).alpha = max gv.clock.alpha (3/10)
    ∧ (SimClock.reheat (3/10) gv.clock).state = ClockState.Running
    ∧ (SimClock.reheat (3/10) gv.clock).alphaTarget = 3/10 := by
  refine ⟨?_, rfl, rfl, rfl, rfl⟩
  simp [dragStart, GraphModel.pinCurrent, List.getElem?_eq_getElem hi, hid]

/-- Witness for C4 (amended): the concrete drag start with no other
gesture active pins node a at `(1, 2)` and reheats the settling clock. -/
theorem dragStart_pins_and_reheats_witness :
    (dragStart gv0 false "a").model.nodes[0]? =
      some { gv0.model.nodes.get ⟨0, by decide⟩ with
             pin := some ((gv0.model.nodes.get ⟨0, by decide⟩).x,
                          (gv0.model.nodes.get ⟨0, by decide⟩).y) }
    ∧ ((dragStart gv0 false "a").clock =
        if false then gv0.clock else SimClock.reheat (3/10) gv0.clock)
    ∧ (SimClock.reheat (3/10) gv0.clock).alpha = max gv0.clock.alpha (3/10)
    ∧ (SimClock.reheat (3/10) gv0.clock).state = ClockState.Running
    ∧ (SimClock.reheat (3/10) gv0.clock).alphaTarget = 3/10 :=
  dragStart_pins_and_reheats gv0 false "a" 0 (by decide) (by decide)

/-- Counterexample for C5 as stated: a drag-end event arriving while
another drag gesture is active (`event.active` true) does not invoke
cool — the forcing floor stays at 3/10 instead of dropping to 0. -/
theorem dragEnd_cool_counterexample :
    (dragEnd gv1 true "a").clock.alphaTarget ≠ 0 := by
  norm_num [dragEnd, gv1, clockHot]

/-- Claim C5, amended — drag end always clears the dragged node's pin,
and invokes cool() exactly when no other drag gesture is active; cool
drops the forcing floor to zero, after which a tick applies the
ordinary multiplicative decay (given the standing `0 ≤ alpha` and
`alphaDecay ≤ 1`). -/
theorem dragEnd_unpins_and_cools (gv : GraphView) (active : Bool) (nid : String)
    (i : ℕ) (hi : i < gv.model.nodes.length)
    (hid : gv.model.nodes[i].id = nid) :
    (dragEnd gv active nid).model.nodes[i]? =
      some { gv.model.nodes[i] with pin := none }
    ∧ ((dragEnd gv active nid).clock =
        if active then gv.clock else SimClock.cool gv.clock)
    ∧ (SimClock.cool gv.clock).alphaTarget = 0
    ∧ (0 ≤ gv.clock.alpha → gv.clock.alphaDecay ≤ 1 →
        (SimClock.cool gv.clock).tickStep.alpha =
          gv.clock.alpha * (1 - gv.clock.alphaDecay)) := by
  refine ⟨?_, rfl, rfl, ?_⟩
  · simp [dragEnd, GraphModel.unpin, List.getElem?_eq_getElem hi, hid]
  · intro ha hdec
    have hnn : 0 ≤ gv.clock.alpha * (1 - gv.clock.alphaDecay) :=
      mul_nonneg ha (by linarith)
    simp only [SimClock.tickStep, SimClock.cool, max_eq_left hnn]
    split <;> rfl

/-- Witness for C5 (amended): the concrete drag end with no other
gesture active unpins node a and drops the forcing floor of the
reheated clock. -/
theorem dragEnd_unpins_and_cools_witness :
    (dragEnd gv1 false "a").model.nodes[0]? =
      some { gv1.model.nodes.get ⟨0, by decide⟩ with pin := none }
    ∧ ((dragEnd gv1 false "a").clock =
        if false then gv1.clock else SimClock.cool gv1.clock)
    ∧ (SimClock.cool gv1.clock).alphaTarget = 0
    ∧ (0 ≤ gv1.clock.alpha → gv1.clock.alphaDecay ≤ 1 →
        (SimClock.cool gv1.clock).tickStep.alpha =
          gv1.clock.alpha * (1 - gv1.clock.alphaDecay)) :=
  dragEnd_unpins_and_cools gv1 false "a" 0 (by decide) (by decide)

/-- Helper: recurrence of the relative separating velocity — while the
disks overlap, one tick adds the alpha-scaled overlap to it. -/
theorem collVel_succ (sep d D0 : ℚ) (n : ℕ) :
    collVel sep d D0 (n + 1) =
      if collDist sep d D0 n < sep
      then collVel sep d D0 n + (1 - d) ^ (n + 1) * (sep - collDist sep d D0 n)
      else collVel sep d D0 n := by
  simp only [collVel, collDist, collRun, collTick, collForce]
  split <;> ring

/-- Helper: recurrence of the center distance. -/
theorem collDist_succ (sep d D0 : ℚ) (n : ℕ) :
    collDist sep d D0 (n + 1) = collDist sep d D0 n + collVel sep d D0 (n + 1) := by
  simp only [collVel, collDist, collRun, collTick]
  ring

/-- Helper: the relative separating velocity never becomes negative. -/
theorem collVel_nonneg (sep d D0 : ℚ) (hd1 : d < 1) (n : ℕ) :
    0 ≤ collVel sep d D0 n := by
  induction n with
  | zero => simp [collVel, collRun]
  | succ n ih =>
    rw [collVel_succ]
    split
    · have hp : (0 : ℚ) ≤ (1 - d) ^ (n + 1) := pow_nonneg (by linarith) _
      have hov : (0 : ℚ) ≤ sep - collDist sep d D0 n := by linarith
      nlinarith
    · exact ih

/-- Helper: the relative separating velocity is monotone in the tick
count. -/
theorem collVel_mono (sep d D0 : ℚ) (hd1 : d < 1) :
    Monotone (collVel sep d D0) := by
  apply monotone_nat_of_le_succ
  intro n
  rw [collVel_succ]
  split
  · have hp : (0 : ℚ) ≤ (1 - d) ^ (n + 1) := pow_nonneg (by linarith) _
    have hov : (0 : ℚ) ≤ sep - collDist sep d D0 n := by linarith
    nlinarith
  · exact le_refl _

/-- Helper: value of the first tick's relative velocity. -/
theorem collVel_one (sep d D0 : ℚ) (hD : D0 < sep) :
    collVel sep d D0 1 = (1 - d) * (sep - D0) := by
  have h0 : collDist sep d D0 0 = D0 := by simp [collDist, collRun]
  have hv0 : collVel sep d D0 0 = 0 := by simp [collVel, collRun]
  rw [collVel_succ, h0, if_pos hD, hv0, pow_one]
  ring

/-- Helper: from tick 1 on, the distance grows at least linearly with
the first tick's velocity. -/
theorem collDist_linear_growth (sep d D0 : ℚ) (hd1 : d < 1) (k : ℕ) :
    collDist sep d D0 1 + k * collVel sep d D0 1 ≤ collDist sep d D0 (1 + k) := by
  induction k with
  | zero => simp
  | succ k ih =>
    have hsucc : 1 + (k + 1) = (1 + k) + 1 := by ring
    rw [hsucc, collDist_succ sep d D0 (1 + k)]
    have hmono : collVel sep d D0 1 ≤ collVel sep d D0 ((1 + k) + 1) :=
      collVel_mono sep d D0 hd1 (by omega)
    have h1 : collDist sep d D0 1 = collDist sep d D0 0 + collVel sep d D0 1 :=
      collDist_succ sep d D0 0
    push_cast
    linarith

/-- Claim C8 — collision non-overlap trend: with each node a disk of
radius `size * 3` and only the collision force enabled, two initially
overlapping same-size nodes strictly increase their center distance on
every tick taken while they still overlap, and the distance reaches the
sum of the radii after finitely many ticks. -/
theorem collision_separation (size d D0 sep : ℚ)
    (_hsep : sep = 2 * collisionRadius size)
    (_hd : 0 < d) (hd1 : d < 1) (_hD0 : 0 ≤ D0) (hover : D0 < sep) :
    (∀ n, collDist sep d D0 n < sep →
      collDist sep d D0 n < collDist sep d D0 (n + 1))
    ∧ (∃ n, sep ≤ collDist sep d D0 n) := by
  constructor
  · intro n hn
    rw [collDist_succ, collVel_succ, if_pos hn]
    have hp : (0 : ℚ) < (1 - d) ^ (n + 1) := pow_pos (by linarith) _
    have hov : (0 : ℚ) < sep - collDist sep d D0 n := by linarith
    have hv := collVel_nonneg sep d D0 hd1 n
    nlinarith
  · have hw1 : collVel sep d D0 1 = (1 - d) * (sep - D0) :=
      collVel_one sep d D0 hover
    have hw1pos : 0 < collVel sep d D0 1 := by
      rw [hw1]
      have : (0 : ℚ) < 1 - d := by linarith
      nlinarith
    set w1 := collVel sep d D0 1 with hw1def
    set d1 := collDist sep d D0 1 with hd1def
    refine ⟨1 + ⌈(sep - d1) / w1⌉₊, ?_⟩
    have hk : (sep - d1) / w1 ≤ (⌈(sep - d1) / w1⌉₊ : ℚ) := Nat.le_ceil _
    have hk2 : sep - d1 ≤ (⌈(sep - d1) / w1⌉₊ : ℚ) * w1 := by
      have := mul_le_mul_of_nonneg_right hk (le_of_lt hw1pos)
      rwa [div_mul_cancel₀ _ (ne_of_gt hw1pos)] at this
    have hlin := collDist_linear_growth sep d D0 hd1 ⌈(sep - d1) / w1⌉₊
    rw [← hd1def, ← hw1def] at hlin
    linarith

/-- Witness for C8: two size-5 nodes (collision radius 15) starting 10
apart separate — strictly increasing while overlapping, eventually 30
apart. -/
theorem collision_separation_witness :
    (30 : ℚ) = 2 * collisionRadius 5
    ∧ (0 : ℚ) < 1/2 ∧ (1/2 : ℚ) < 1 ∧ (0 : ℚ) ≤ 10 ∧ (10 : ℚ) < 30
    ∧ ((∀ n, collDist 30 (1/2) 10 n < 30 →
          collDist 30 (1/2) 10 n < collDist 30 (1/2) 10 (n + 1))
        ∧ (∃ n, 30 ≤ collDist 30 (1/2) 10 n)) :=
  ⟨by norm_num [collisionRadius], by norm_num, by norm_num, by norm_num, by norm_num,
   collision_separation 5 (1/2) 10 30 (by norm_num [collisionRadius])
     (by norm_num) (by norm_num) (by norm_num) (by norm_num)⟩

/-- Counterexample for C3 as stated: with `alphaDecay = 1/2` and
`alphaMin = 1/4` the schedule executes 3 ticks before stopping (after
two ticks alpha equals 1/4, which is not yet below the threshold),
while `ceil(log alphaMin / log(1 - d)) = ceil(2) = 2`. -/
theorem ticks_ceil_counterexample :
    ticksToStop (1/2) (1/4) (by norm_num) (by norm_num) (by norm_num) = 3
    ∧ (⌈Real.log (1/4) / Real.log (1/2)⌉ : ℤ) = 2
    ∧ (ticksToStop (1/2) (1/4) (by norm_num) (by norm_num) (by norm_num) : ℤ)
        ≠ ⌈Real.log (1/4) / Real.log (1/2)⌉ := by
  have h3 : ticksToStop (1/2) (1/4) (by norm_num) (by norm_num) (by norm_num) = 3 := by
    rw [ticksToStop, Nat.find_eq_iff]
    refine ⟨by rw [alphaAfter_eq_pow]; norm_num, ?_⟩
    intro n hn
    rw [alphaAfter_eq_pow]
    interval_cases n <;> norm_num
  have hne : Real.log (1/2 : ℝ) ≠ 0 :=
    ne_of_lt (Real.log_neg (by norm_num) (by norm_num))
  have hlog : Real.log (1/4) / Real.log (1/2) = 2 := by
    have h14 : (1/4 : ℝ) = (1/2) ^ (2 : ℕ) := by norm_num
    rw [h14, Real.log_pow]
    push_cast
    rw [mul_div_assoc, div_self hne, mul_one]
  have hceil : (⌈Real.log (1/4) / Real.log (1/2)⌉ : ℤ) = 2 := by
    rw [hlog]
    rw [show ((2 : ℝ)) = ((2 : ℤ) : ℝ) by norm_num, Int.ceil_intCast]
  refine ⟨h3, hceil, ?_⟩
  rw [h3, hceil]
  norm_num

/-- Claim C3, amended — convergence in a deterministic tick count: from
`alpha = 1` with decay `d in (0,1)` and threshold `alphaMin in (0,1)`,
the schedule stops after exactly `floor(log alphaMin / log(1-d)) + 1`
ticks; this agrees with `ceil(log alphaMin / log(1-d))` except when the
quotient is an integer, where one more tick runs. -/
theorem ticks_eq_floor_add_one (d m : ℚ) (hd : 0 < d) (hd1 : d < 1)
    (hm : 0 < m) (hm1 : m < 1) :
    (ticksToStop d m hd hd1 hm : ℤ)
      = ⌊Real.log (m : ℝ) / Real.log (1 - (d : ℝ))⌋ + 1 := by
  have hdR : (0 : ℝ) < (d : ℝ) := by exact_mod_cast hd
  have hd1R : (d : ℝ) < 1 := by exact_mod_cast hd1
  have hb0 : (0 : ℝ) < 1 - (d : ℝ) := by linarith
  have hb1 : (1 : ℝ) - (d : ℝ) < 1 := by linarith
  have hm0R : (0 : ℝ) < (m : ℝ) := by exact_mod_cast hm
  have hm1R : (m : ℝ) < 1 := by exact_mod_cast hm1
  have hL : Real.log (1 - (d : ℝ)) < 0 := Real.log_neg hb0 hb1
  have hM : Real.log (m : ℝ) < 0 := Real.log_neg hm0R hm1R
  have hxpos : 0 < Real.log (m : ℝ) / Real.log (1 - (d : ℝ)) :=
    div_pos_iff.mpr (Or.inr ⟨hM, hL⟩)
  have key : ∀ n : ℕ, (alphaAfter d n < m ↔
      Real.log (m : ℝ) / Real.log (1 - (d : ℝ)) < (n : ℝ)) := by
    intro n
    rw [alphaAfter_eq_pow]
    have hcast : ((1 - d : ℚ) ^ n < m) ↔ ((1 - (d : ℝ)) ^ n < (m : ℝ)) := by
      constructor
      · intro h
        have : (((1 - d : ℚ) ^ n : ℚ) : ℝ) < ((m : ℚ) : ℝ) := by exact_mod_cast h
        calc (1 - (d : ℝ)) ^ n = (((1 - d : ℚ) ^ n : ℚ) : ℝ) := by push_cast; ring
        _ < (m : ℝ) := this
      · intro h
        have h2 : (((1 - d : ℚ) ^ n : ℚ) : ℝ) < ((m : ℚ) : ℝ) := by
          calc (((1 - d : ℚ) ^ n : ℚ) : ℝ) = (1 - (d : ℝ)) ^ n := by push_cast; ring
          _ < (m : ℝ) := h
        exact_mod_cast h2
    rw [hcast]
    have hpowpos : (0 : ℝ) < (1 - (d : ℝ)) ^ n := pow_pos hb0 n
    rw [← Real.log_lt_log_iff hpowpos hm0R, Real.log_pow]
    exact (div_lt_iff_of_neg hL).symm
  have hfl0 : 0 ≤ ⌊Real.log (m : ℝ) / Real.log (1 - (d : ℝ))⌋ :=
    Int.floor_nonneg.mpr (le_of_lt hxpos)
  have hK : ((⌊Real.log (m : ℝ) / Real.log (1 - (d : ℝ))⌋ + 1).toNat : ℤ)
      = ⌊Real.log (m : ℝ) / Real.log (1 - (d : ℝ))⌋ + 1 :=
    Int.toNat_of_nonneg (by linarith)
  have hmain : ticksToStop d m hd hd1 hm
      = (⌊Real.log (m : ℝ) / Real.log (1 - (d : ℝ))⌋ + 1).toNat := by
    rw [ticksToStop, Nat.find_eq_iff]
    constructor
    · rw [key]
      have hlt : ⌊Real.log (m : ℝ) / Real.log (1 - (d : ℝ))⌋
          < ((⌊Real.log (m : ℝ) / Real.log (1 - (d : ℝ))⌋ + 1).toNat : ℤ) := by
        rw [hK]
        linarith
      have := Int.floor_lt.mp hlt
      exact_mod_cast this
    · intro j hj
      rw [key]
      have hj' : (j : ℤ) ≤ ⌊Real.log (m : ℝ) / Real.log (1 - (d : ℝ))⌋ := by
        have : (j : ℤ) < ((⌊Real.log (m : ℝ) / Real.log (1 - (d : ℝ))⌋ + 1).toNat : ℤ) := by
          exact_mod_cast hj
        rw [hK] at this
        linarith
      have := Int.le_floor.mp hj'
      exact not_lt.mpr (by exact_mod_cast this)
  rw [hmain, hK]

/-- Witness for C3 (amended): with decay 1/2 and threshold 1/4 the
schedule stops after `floor(log(1/4)/log(1/2)) + 1 = 3` ticks. -/
theorem ticks_eq_floor_add_one_witness :
    (0 : ℚ) < 1/2 ∧ (1/2 : ℚ) < 1 ∧ (0 : ℚ) < 1/4 ∧ (1/4 : ℚ) < 1
    ∧ (ticksToStop (1/2) (1/4) (by norm_num) (by norm_num) (by norm_num) : ℤ)
        = ⌊Real.log ((1/4 : ℚ) : ℝ) / Real.log (1 - ((1/2 : ℚ) : ℝ))⌋ + 1 :=
  ⟨by norm_num, by norm_num, by norm_num, by norm_num,
   ticks_eq_floor_add_one (1/2) (1/4) (by norm_num) (by norm_num)
     (by norm_num) (by norm_num)⟩

end KGraph
